import Mathlib

/-!
Verification of the masstTrader trading core against its specification.

The Python sources are shallowly embedded as follows: a pandas row becomes
a finite association list from column names to optional rationals (`none`
models a float NaN cell); Python floats become rationals; Python `None`
becomes `Option.none`; code that can raise an exception is embedded in the
`Except Unit` monad, `.error ()` standing for an uncaught Python exception.
Python's `float(s)` string parsing is abstracted as a parameter
`pf : String → Option (Option ℚ)` (`none` = `ValueError`, `some none` = a
parsed NaN, `some (some q)` = a parsed finite value); every theorem below
holds for an arbitrary such parser.
-/

deriving instance DecidableEq for Except

namespace MasstTrader

/-- Python `abs` on a rational, written so that it evaluates by kernel
reduction. -/
def pyAbs (q : ℚ) : ℚ := if q < 0 then -q else q

/-- Python two-argument `max`, written so that it evaluates by kernel
reduction. -/
def pyMax (a b : ℚ) : ℚ := if a ≤ b then b else a

/-- One pandas row (a candle plus its indicator columns) as consumed by
`backend/core/backtester.py`: an association list from column name to cell
value, where a cell holds `none` for a float NaN. -/
abbrev Row := List (String × Option ℚ)

/-- Column lookup on a row: `none` models `col not in row.index`,
`some none` a NaN cell, `some (some q)` a finite numeric cell. -/
def Row.cell (r : Row) (c : String) : Option (Option ℚ) :=
  (r.find? (fun p => p.1 == c)).map (·.2)

/-- Python `a <= b` on floats that may be NaN: any comparison with NaN is
`False`. -/
def pyLe : Option ℚ → Option ℚ → Bool
  | some a, some b => decide (a ≤ b)
  | _, _ => false

/-- Python `a >= b` on floats that may be NaN: any comparison with NaN is
`False`. -/
def pyGe : Option ℚ → Option ℚ → Bool
  | some a, some b => decide (b ≤ a)
  | _, _ => false

/-- The fixed indicator-name table of `_resolve_column`
(`backend/core/backtester.py` lines 79-117). -/
def _column_mapping : List ((String × String) × String) := [
  (("RSI", "value"), "RSI_14"),
  (("MACD", "line"), "MACD_line"),
  (("MACD", "signal"), "MACD_signal"),
  (("MACD", "histogram"), "MACD_histogram"),
  (("EMA", "value"), "EMA_50"),
  (("SMA", "value"), "SMA_20"),
  (("Bollinger", "upper"), "BB_upper"),
  (("Bollinger", "middle"), "BB_middle"),
  (("Bollinger", "lower"), "BB_lower"),
  (("Bollinger", "width"), "BB_width"),
  (("ATR", "value"), "ATR_14"),
  (("Stochastic", "K"), "Stoch_K"),
  (("Stochastic", "D"), "Stoch_D"),
  (("ADX", "value"), "ADX_14"),
  (("ADX", "DI_plus"), "DI_plus"),
  (("ADX", "DI_minus"), "DI_minus"),
  (("Volume", "OBV"), "OBV"),
  (("Volume", "ratio"), "Volume_ratio"),
  (("LiqSweep", "bull"), "Liq_sweep_bull"),
  (("LiqSweep", "bear"), "Liq_sweep_bear"),
  (("LiqSweep", "swing_high"), "Swing_high"),
  (("LiqSweep", "swing_low"), "Swing_low"),
  (("AVWAP", "high"), "AVWAP_high"),
  (("AVWAP", "low"), "AVWAP_low"),
  (("VolumeDelta", "delta"), "Volume_delta"),
  (("VolumeDelta", "cumulative"), "Cumulative_delta"),
  (("VolumeDelta", "sma"), "Delta_SMA_14"),
  (("VolumeDelta", "value"), "Volume_delta"),
  (("VolumeProfile", "poc"), "VP_POC"),
  (("VolumeProfile", "vah"), "VP_VAH"),
  (("VolumeProfile", "val"), "VP_VAL"),
  (("VolumeProfile", "position"), "VP_position"),
  (("VolumeProfile", "value"), "VP_POC")]

/-- Embeds `_resolve_column` of `backend/core/backtester.py` (lines
77-134): table lookup, then raw OHLCV names, then indicators that are
already column names (contain an underscore), then the
`indicator_parameter` fallback. -/
def _resolve_column (indicator parameter : String) : String :=
  match _column_mapping.lookup (indicator, parameter) with
  | some col => col
  | none =>
    if indicator ∈ ["open", "high", "low", "close", "volume"] then indicator
    else if indicator.data.contains '_' then indicator
    else indicator ++ "_" ++ parameter

/-- The `value` entry of a condition dict: a Python number (`none` = the
float NaN), a string, or Python `None`. -/
inductive TargetValue where
  | num (v : Option ℚ)
  | str (s : String)
  | pynone
deriving DecidableEq, Repr

/-- A condition dict as read by `evaluate_condition`: the mandatory
`indicator`, `operator` and `value` keys plus the optional `parameter` key
(`condition.get("parameter", "value")`). -/
structure Condition where
  indicator : String
  parameter : Option String
  operator : String
  value : TargetValue
deriving DecidableEq, Repr

/-- Target resolution of `evaluate_condition` (`backend/core/backtester.py`
lines 25-36): a string target is first resolved as another indicator
column of the current row, else parsed with `float` (a `ValueError` is
caught and mapped to `.ok none`, the early `return False`); a numeric
target goes through `float` unchanged; a `None` target makes `float(None)`
raise `TypeError`, which nothing catches. Result `.ok (some v)` carries
the resolved `target_num` with `v = none` for NaN. -/
def resolveTarget (pf : String → Option (Option ℚ)) (row : Row) :
    TargetValue → Except Unit (Option (Option ℚ))
  | .pynone => .error ()
  | .num v => .ok (some v)
  | .str s =>
    match row.cell (_resolve_column s "value") with
    | some tv => .ok (some tv)
    | none =>
      match pf s with
      | none => .ok none
      | some tv => .ok (some tv)

/-- The `prev_target` computation of the cross branches
(`backend/core/backtester.py` lines 51-58 and 64-71): a string target is
re-resolved against the previous row, falling back to the already-resolved
current `target_num`; a numeric target reuses `target_num`. -/
def prevTarget (prev : Row) (value : TargetValue) (target_num : ℚ) : Option ℚ :=
  match value with
  | .str s =>
    match prev.cell (_resolve_column s "value") with
    | some ptv => ptv
    | none => some target_num
  | _ => some target_num

/-- Operator dispatch of `evaluate_condition` (`backend/core/backtester.py`
lines 41-74), reached after the current value and the target resolved to
finite numbers: `>`, `<`, `==` (epsilon `1e-8`) compare current values
only; the cross operators inspect the previous row and are `False` when it
is absent or lacks the column; an unknown operator falls through to the
final `return False`. -/
def evalOp (operator : String) (value : TargetValue) (col : String)
    (prev_row : Option Row) (current_val target_num : ℚ) : Bool :=
  if operator == ">" then decide (current_val > target_num)
  else if operator == "<" then decide (current_val < target_num)
  else if operator == "==" then decide (pyAbs (current_val - target_num) < 1 / 100000000)
  else if operator == "crosses_above" then
    match prev_row with
    | none => false
    | some prev =>
      match prev.cell col with
      | none => false
      | some prev_val =>
        pyLe prev_val (prevTarget prev value target_num) &&
          decide (current_val > target_num)
  else if operator == "crosses_below" then
    match prev_row with
    | none => false
    | some prev =>
      match prev.cell col with
      | none => false
      | some prev_val =>
        pyGe prev_val (prevTarget prev value target_num) &&
          decide (current_val < target_num)
  else false

/-- Embeds `evaluate_condition` of `backend/core/backtester.py` (lines
9-74): unknown column or NaN current value return `False`; then the target
is resolved (a `None` target raises, modelled by `.error ()`; an
unparseable or NaN target returns `False`); finally the operator
dispatches via `evalOp`. -/
def evaluate_condition (pf : String → Option (Option ℚ)) (row : Row)
    (prev_row : Option Row) (condition : Condition) : Except Unit Bool :=
  match row.cell (_resolve_column condition.indicator (condition.parameter.getD "value")) with
  | none => .ok false
  | some none => .ok false
  | some (some current_val) =>
    match resolveTarget pf row condition.value with
    | .error e => .error e
    | .ok none => .ok false
    | .ok (some none) => .ok false
    | .ok (some (some target_num)) =>
      .ok (evalOp condition.operator condition.value
        (_resolve_column condition.indicator (condition.parameter.getD "value"))
        prev_row current_val target_num)

/-- Short-circuit conjunction over condition lists, embedding the Python
generator expression `all(evaluate_condition(row, prev_row, cond) for cond
in conditions)` used by `run_backtest`: evaluation stops at the first
false condition, and an exception in an evaluated condition propagates. -/
def allConds (pf : String → Option (Option ℚ)) (row : Row) (prev_row : Option Row) :
    List Condition → Except Unit Bool
  | [] => .ok true
  | c :: cs => do
    let b ← evaluate_condition pf row prev_row c
    if b then allConds pf row prev_row cs else pure false

/-- One rule config built by `run_backtest` (`backend/core/backtester.py`
lines 162-174) from a rule dict. `min_bars` embeds
`rule.get("min_bars_in_trade") or 0`; the optional numeric fields are
`None`-able dict entries. -/
structure RuleConfig where
  index : ℕ
  direction : String
  entry_conditions : List Condition
  exit_conditions : List Condition
  sl_pips : Option ℚ
  tp_pips : Option ℚ
  sl_atr_mult : Option ℚ
  tp_atr_mult : Option ℚ
  min_bars : ℕ
deriving DecidableEq, Repr

/-- The flat-state entry scan of `run_backtest` (`backend/core/backtester.py`
lines 193-219): rules are visited in list order, a rule with an empty
entry-condition list is skipped (`if not rc["entry_conditions"]: continue`),
and the first rule whose entry conditions all evaluate true is returned
(`break` — first matching rule wins). -/
def scanEntry (pf : String → Option (Option ℚ)) (row prev_row : Row) :
    List RuleConfig → Except Unit (Option RuleConfig)
  | [] => .ok none
  | rc :: rest =>
    if rc.entry_conditions.isEmpty then scanEntry pf row prev_row rest
    else do
      let all_entry_met ← allConds pf row (some prev_row) rc.entry_conditions
      if all_entry_met then pure (some rc) else scanEntry pf row prev_row rest

/-- The `ATR_14` read at entry (`backend/core/backtester.py` line 210):
`float(row["ATR_14"])` when the column exists and is not NaN, else `0`. -/
def atrVal (row : Row) : ℚ :=
  match row.cell "ATR_14" with
  | some (some v) => v
  | _ => 0

/-- Effective stop/target distance at entry (`backend/core/backtester.py`
lines 211-218): when the rule's ATR multiplier is truthy and the current
ATR is positive, `(atr * mult) * 10000`; else the literal pip field (which
may be `None`). -/
def effPips (atr_mult pips : Option ℚ) (atr_val : ℚ) : Option ℚ :=
  match atr_mult with
  | some m => if m ≠ 0 ∧ 0 < atr_val then some (atr_val * m * 10000) else pips
  | none => pips

/-- The stop-loss check of `run_backtest` (`backend/core/backtester.py`
line 233): starting from `exit_reason = None`, it fires when
`effective_sl_pips` is truthy and `pnl_pips <= -effective_sl_pips`. -/
def slCheck (eff_sl : Option ℚ) (pnl_pips : ℚ) : Option String :=
  match eff_sl with
  | some v => if v ≠ 0 ∧ pnl_pips ≤ -v then some "stop_loss" else none
  | none => none

/-- The take-profit check of `run_backtest` (`backend/core/backtester.py`
line 236): it overwrites the previous `exit_reason` when
`effective_tp_pips` is truthy and `pnl_pips >= effective_tp_pips`. -/
def tpCheck (eff_tp : Option ℚ) (pnl_pips : ℚ) (prev_reason : Option String) :
    Option String :=
  match eff_tp with
  | some v => if v ≠ 0 ∧ v ≤ pnl_pips then some "take_profit" else prev_reason
  | none => prev_reason

/-- Continuation of `btExitReason`: the two capital-protection checks in
program order. -/
def capitalChecks (eff_sl eff_tp : Option ℚ) (pnl_pips : ℚ) : Option String :=
  tpCheck eff_tp pnl_pips (slCheck eff_sl pnl_pips)

/-- The in-position exit decision of one bar of `run_backtest`
(`backend/core/backtester.py` lines 230-249): the capital-protection
checks run every bar; then, only when the rule has exit conditions and
`bars_held >= min_bars`, the exit conditions are evaluated and, if all
true, the reason becomes (overwriting) `strategy_exit`. -/
def btExitReason (pf : String → Option (Option ℚ)) (row prev_row : Row)
    (bars_held : ℕ) (rc : RuleConfig) (eff_sl eff_tp : Option ℚ)
    (pnl_pips : ℚ) : Except Unit (Option String) :=
  if rc.exit_conditions ≠ [] ∧ rc.min_bars ≤ bars_held then
    (allConds pf row (some prev_row) rc.exit_conditions).map
      (fun b => if b then some "strategy_exit"
        else capitalChecks eff_sl eff_tp pnl_pips)
  else .ok (capitalChecks eff_sl eff_tp pnl_pips)

/-- A closed trade as appended by `run_backtest` (`backend/core/backtester.py`
lines 262-278). The string timestamps and the indicator snapshots of the
Python record are not modelled (no claim concerns them), and `profit` and
`pnl_pips` are kept unrounded (the Python `round(_, 2)` only affects
display precision). -/
structure Trade where
  entry_price : ℚ
  exit_price : ℚ
  direction : String
  pnl_pips : ℚ
  profit : ℚ
  exit_reason : String
  rule_index : ℕ
deriving DecidableEq, Repr

/-- The open-position part of the simulator state (`entry_price`,
`entry_index`, `active_rc`, `effective_sl_pips`, `effective_tp_pips`,
`active_direction` of `run_backtest`). -/
structure ActivePos where
  entry_price : ℚ
  entry_index : ℕ
  rc : RuleConfig
  eff_sl : Option ℚ
  eff_tp : Option ℚ
  direction : String
deriving DecidableEq, Repr

/-- The mutable state threaded through the bar loop of `run_backtest`:
balance, equity curve, trade ledger, and the open position if any
(`in_position` is `pos.isSome`). -/
structure BTState where
  balance : ℚ
  equity_curve : List ℚ
  trades : List Trade
  pos : Option ActivePos
deriving DecidableEq, Repr

/-- The `row["close"]` read of `run_backtest`; rows produced by
`add_all_indicators` always carry a finite `close` (pandas would raise on
a missing column). -/
def closeQ (row : Row) : ℚ :=
  match row.cell "close" with
  | some (some v) => v
  | _ => 0

/-- One iteration of the bar loop of `run_backtest`
(`backend/core/backtester.py` lines 188-282): while flat, scan the rules
and open a position with effective stop/target computed from the current
bar's ATR; while in a position, compute `pnl_pips` by direction, decide
the exit via `btExitReason`, and on exit credit
`risk_amount * (pnl_pips / sl_for_calc)` (falling back to a `/ 100` scale
when no positive stop distance exists); the equity curve is appended every
bar with the post-close balance. -/
def btStep (pf : String → Option (Option ℚ)) (risk_per_trade : ℚ)
    (rule_configs : List RuleConfig) (i : ℕ) (row prev_row : Row)
    (st : BTState) : Except Unit BTState :=
  match st.pos with
  | none => do
    let m ← scanEntry pf row prev_row rule_configs
    match m with
    | some rc =>
      let atr_val := atrVal row
      let pos : ActivePos :=
        { entry_price := closeQ row
          entry_index := i
          rc := rc
          eff_sl := effPips rc.sl_atr_mult rc.sl_pips atr_val
          eff_tp := effPips rc.tp_atr_mult rc.tp_pips atr_val
          direction := rc.direction }
      pure { st with pos := some pos, equity_curve := st.equity_curve ++ [st.balance] }
    | none => pure { st with equity_curve := st.equity_curve ++ [st.balance] }
  | some ps => do
    let current_price := closeQ row
    let pnl_pips :=
      if ps.direction == "buy" then (current_price - ps.entry_price) * 10000
      else (ps.entry_price - current_price) * 10000
    let reason ← btExitReason pf row prev_row (i - ps.entry_index) ps.rc
      ps.eff_sl ps.eff_tp pnl_pips
    match reason with
    | none => pure { st with equity_curve := st.equity_curve ++ [st.balance] }
    | some r =>
      let risk_amount := st.balance * (risk_per_trade / 100)
      let profit :=
        match ps.eff_sl with
        | some v => if 0 < v then risk_amount * (pnl_pips / v) else risk_amount * (pnl_pips / 100)
        | none => risk_amount * (pnl_pips / 100)
      let balance := st.balance + profit
      pure { balance := balance
             equity_curve := st.equity_curve ++ [balance]
             trades := st.trades ++ [⟨ps.entry_price, current_price, ps.direction,
               pnl_pips, profit, r, ps.rc.index⟩]
             pos := none }

/-- The bar loop `for i in range(1, len(df))` of `run_backtest`, carrying
the previous row alongside the index. -/
def runBars (pf : String → Option (Option ℚ)) (risk_per_trade : ℚ)
    (rule_configs : List RuleConfig) :
    ℕ → Row → List Row → BTState → Except Unit BTState
  | _, _, [], st => pure st
  | i, prev_row, row :: rest, st => do
    let st' ← btStep pf risk_per_trade rule_configs i row prev_row st
    runBars pf risk_per_trade rule_configs (i + 1) row rest st'

/-- Embeds `run_backtest` of `backend/core/backtester.py` (lines 137-287)
over rows that already carry their indicator columns (the
`add_all_indicators` / `dropna` preprocessing is outside the simulation
loop and outside every claim): the state starts with
`equity_curve = [initial_balance]` and no position, and bars are replayed
from index 1. -/
def run_backtest (pf : String → Option (Option ℚ)) (rows : List Row)
    (rule_configs : List RuleConfig) (initial_balance risk_per_trade : ℚ) :
    Except Unit BTState :=
  match rows with
  | [] => pure ⟨initial_balance, [initial_balance], [], none⟩
  | r0 :: rest =>
    runBars pf risk_per_trade rule_configs 1 r0 rest
      ⟨initial_balance, [initial_balance], [], none⟩

/-- The statistics fields of `_calculate_stats` that the claims mention.
The fields built from floating aggregates irrelevant to every claim
(`max_drawdown`, `sharpe_ratio`, `avg_win`, `avg_loss`, `best_trade`,
`worst_trade`) and the display rounding are not modelled. -/
structure StatsResult where
  total_trades : ℕ
  winning_trades : ℕ
  losing_trades : ℕ
  win_rate : ℚ
  profit_factor : ℚ
  final_balance : ℚ
deriving DecidableEq, Repr

/-- Embeds `_calculate_stats` of `backend/core/backtester.py` (lines
290-343): an empty trade list yields the all-zero stats; otherwise wins
are the trades with `profit > 0` and losses those with `profit <= 0`,
`gross_profit = sum(wins) if wins else 0`,
`gross_loss = abs(sum(losses)) if losses else 0.0001`, and
`profit_factor = gross_profit / gross_loss` — a division that raises
`ZeroDivisionError` (modelled `.error ()`) exactly when `gross_loss` is
zero, i.e. when losing trades exist but their profits sum to zero. -/
def _calculate_stats (trades : List Trade) (initial_balance final_balance : ℚ) :
    Except Unit StatsResult :=
  if trades = [] then
    .ok ⟨0, 0, 0, 0, 0, initial_balance⟩
  else
    let profits := trades.map (·.profit)
    let wins := profits.filter (fun p => 0 < p)
    let losses := profits.filter (fun p => p ≤ 0)
    let gross_profit := if wins ≠ [] then wins.sum else 0
    let gross_loss := if losses ≠ [] then pyAbs losses.sum else 1 / 10000
    if gross_loss = 0 then .error ()
    else
      .ok ⟨trades.length, wins.length, losses.length,
        (wins.length : ℚ) / (trades.length : ℚ) * 100,
        gross_profit / gross_loss, final_balance⟩

/-- One deal from the provider's trade history as read by
`_determine_exit_reason` (`backend/api/main.py`): the `entry` tag, the
optional `position_id` (`d.get("position_id")`), and the fill price. -/
structure Deal where
  entry : String
  position_id : Option ℤ
  price : ℚ
deriving DecidableEq, Repr

/-- The `sl_price` / `tp_price` entries of the loop's recorded
`trade_state` dict used by `_determine_exit_reason`. -/
structure TradeStateRec where
  sl_price : Option ℚ
  tp_price : Option ℚ
deriving DecidableEq, Repr

/-- Embeds `_determine_exit_reason` of `backend/api/main.py` (lines
896-915) with the provider call abstracted into the `deals` list it
returns: the first deal with `entry == "out"` and the tracked
`position_id` is taken; with a recorded trade state, the exit price is
compared to the recorded stop then target within
`tol = max(abs(exit_price) * 1e-5, 1e-5)`; everything else is
`"external"`. -/
def _determine_exit_reason (deals : List Deal) (ticket : ℤ)
    (trade_state : Option TradeStateRec) : String :=
  match deals.find? (fun d => d.entry == "out" && d.position_id == some ticket) with
  | none => "external"
  | some d =>
    match trade_state with
    | none => "external"
    | some ts =>
      let tol := pyMax (pyAbs d.price * (1 / 100000)) (1 / 100000)
      if (match ts.sl_price with
          | some sl => decide (pyAbs (d.price - sl) ≤ tol)
          | none => false) then "stop_loss"
      else if (match ts.tp_price with
          | some tp => decide (pyAbs (d.price - tp) ≤ tol)
          | none => false) then "take_profit"
      else "external"

/-- The trained confidence model as consumed by `predict_confidence`
(`backend/core/ml_filter.py`): its `n_features_in_` attribute (absent on
some estimators) and its `predict_proba`, which returns the probability
row for the single sample and may raise (modelled `.error ()`). -/
structure MLModel where
  n_features_in : Option ℕ
  predict_proba : List ℚ → Except Unit (List ℚ)

/-- The threshold `DEFAULT_THRESHOLD = 0.55` of
`backend/core/ml_filter.py`. -/
def DEFAULT_THRESHOLD : ℚ := 55 / 100

/-- The result dict of `predict_confidence`: `{score, pass, threshold,
model_loaded}`. -/
structure MLResult where
  score : ℚ
  pass : Bool
  threshold : ℚ
  model_loaded : Bool
deriving DecidableEq, Repr

/-- Embeds `predict_confidence` of `backend/core/ml_filter.py` (lines
114-169) over the result of `load_model` (a parameter: `none` when no
model file exists or loading failed) and the already-extracted,
`nan_to_num`-sanitised feature vector: with no model the gate returns
`score=1.0, pass=True`; a feature-count mismatch or a prediction
exception also degrade to that passing result; otherwise the class-1
probability is compared to the threshold (the `round(_, 4)` display
rounding is not modelled). -/
def predict_confidence (model : Option MLModel) (features : List ℚ) : MLResult :=
  match model with
  | none => ⟨1, true, DEFAULT_THRESHOLD, false⟩
  | some m =>
    if (match m.n_features_in with
        | some expected => decide (expected ≠ features.length)
        | none => false) then ⟨1, true, DEFAULT_THRESHOLD, false⟩
    else
      match m.predict_proba features with
      | .error _ => ⟨1, true, DEFAULT_THRESHOLD, false⟩
      | .ok proba =>
        match proba with
        | [] => ⟨1, true, DEFAULT_THRESHOLD, false⟩
        | [p] => ⟨p, decide (DEFAULT_THRESHOLD ≤ p), DEFAULT_THRESHOLD, true⟩
        | _ :: p :: _ => ⟨p, decide (DEFAULT_THRESHOLD ≤ p), DEFAULT_THRESHOLD, true⟩

/-- The per-condition evaluation pass of the live loop
(`backend/api/main.py` lines 1122-1132): unlike the simulator's
short-circuiting `all(...)`, the loop evaluates every entry condition in a
`for` loop and stores each boolean; an exception aborts the whole tick
(the surrounding `try`). -/
def liveCondResults (pf : String → Option (Option ℚ)) (row prev_row : Row) :
    List Condition → Except Unit (List Bool)
  | [] => .ok []
  | c :: cs => do
    let b ← evaluate_condition pf row (some prev_row) c
    let rest ← liveCondResults pf row prev_row cs
    pure (b :: rest)

/-- The live entry gate of `_algo_loop` (`backend/api/main.py` lines
1182-1211): an order is submitted only when
`all_entry and len(entry_conditions) > 0 and ml_pass` holds, where
`all_entry = all(r["passed"] for r in entry_results)` over the
already-computed per-condition results. -/
def liveEntryDecision (pf : String → Option (Option ℚ)) (row prev_row : Row)
    (entry_conditions : List Condition) (ml_pass : Bool) : Except Unit Bool := do
  let rs ← liveCondResults pf row prev_row entry_conditions
  pure (rs.all id && decide (0 < entry_conditions.length) && ml_pass)

/-- Program counter of one thread executing `algo_start`
(`backend/api/main.py` lines 1434-1487) for a fixed symbol:
`beforeCheck` before the membership test, `beforeRegister` after the test
found no entry, `running` after the registry insert and thread spawn
(the endpoint returns success), `rejected` after the test found an entry
(HTTP 400). -/
inductive StartPc where
  | beforeCheck
  | beforeRegister
  | running
  | rejected
deriving DecidableEq, Repr

/-- Shared state of two concurrent `algo_start` requests: the key set of
the `algo_instances` dict plus each thread's program counter. -/
structure RegSys where
  registry : List String
  p1 : StartPc
  p2 : StartPc
deriving DecidableEq, Repr

/-- Dict-key insert for `algo_instances[symbol] = instance`: a second
insert overwrites the value, leaving the key set unchanged. -/
def regInsert (sym : String) (reg : List String) : List String :=
  if sym ∈ reg then reg else sym :: reg

/-- Interleaving semantics of two concurrent `algo_start(symbol)` calls.
Each constructor is one critical section of `_instances_lock`: the
membership check (`backend/api/main.py` lines 1463-1465) and the registry
insert (lines 1477-1478) are two separate `with _instances_lock:` blocks,
so another thread may run between a thread's check and its insert. -/
inductive StartStep (sym : String) : RegSys → RegSys → Prop
  | check1_hit (s : RegSys) : s.p1 = .beforeCheck → sym ∈ s.registry →
      StartStep sym s { s with p1 := .rejected }
  | check1_miss (s : RegSys) : s.p1 = .beforeCheck → sym ∉ s.registry →
      StartStep sym s { s with p1 := .beforeRegister }
  | register1 (s : RegSys) : s.p1 = .beforeRegister →
      StartStep sym s { s with registry := regInsert sym s.registry, p1 := .running }
  | check2_hit (s : RegSys) : s.p2 = .beforeCheck → sym ∈ s.registry →
      StartStep sym s { s with p2 := .rejected }
  | check2_miss (s : RegSys) : s.p2 = .beforeCheck → sym ∉ s.registry →
      StartStep sym s { s with p2 := .beforeRegister }
  | register2 (s : RegSys) : s.p2 = .beforeRegister →
      StartStep sym s { s with registry := regInsert sym s.registry, p2 := .running }

section EvaluatorLemmas

/-- A concrete string-to-float parser that always fails, used by the
witness instantiations (the strategies in them never rely on string
parsing). -/
def pfNone : String → Option (Option ℚ) := fun _ => none

/-- Target resolution never raises when the condition's value is not
Python `None`. -/
theorem resolveTarget_ok_of_ne_pynone (pf : String → Option (Option ℚ))
    (row : Row) (v : TargetValue) (h : v ≠ .pynone) :
    ∃ o, resolveTarget pf row v = .ok o := by
  cases v with
  | num q => exact ⟨some q, rfl⟩
  | str s =>
    simp only [resolveTarget]
    cases hc : row.cell (_resolve_column s "value") with
    | some tv => exact ⟨some tv, rfl⟩
    | none =>
      cases hp : pf s with
      | none => exact ⟨none, rfl⟩
      | some tv => exact ⟨some tv, rfl⟩
  | pynone => exact absurd rfl h

/-- Reduction of the evaluator when the condition's column is absent from
the current row. -/
theorem eval_col_missing {pf : String → Option (Option ℚ)} {row : Row}
    {prev : Option Row} {c : Condition}
    (hc : row.cell (_resolve_column c.indicator (c.parameter.getD "value")) = none) :
    evaluate_condition pf row prev c = .ok false := by
  simp only [evaluate_condition, hc]

/-- Reduction of the evaluator when the current cell is NaN. -/
theorem eval_cur_nan {pf : String → Option (Option ℚ)} {row : Row}
    {prev : Option Row} {c : Condition}
    (hc : row.cell (_resolve_column c.indicator (c.parameter.getD "value")) = some none) :
    evaluate_condition pf row prev c = .ok false := by
  simp only [evaluate_condition, hc]

/-- Reduction of the evaluator when target resolution raises. -/
theorem eval_tgt_error {pf : String → Option (Option ℚ)} {row : Row}
    {prev : Option Row} {c : Condition} {cur : ℚ}
    (hc : row.cell (_resolve_column c.indicator (c.parameter.getD "value")) = some (some cur))
    (ht : resolveTarget pf row c.value = .error ()) :
    evaluate_condition pf row prev c = .error () := by
  simp only [evaluate_condition, hc, ht]

/-- Reduction of the evaluator when the string target neither resolves to
a column nor parses as a float. -/
theorem eval_tgt_unparsed {pf : String → Option (Option ℚ)} {row : Row}
    {prev : Option Row} {c : Condition} {cur : ℚ}
    (hc : row.cell (_resolve_column c.indicator (c.parameter.getD "value")) = some (some cur))
    (ht : resolveTarget pf row c.value = .ok none) :
    evaluate_condition pf row prev c = .ok false := by
  simp only [evaluate_condition, hc, ht]

/-- Reduction of the evaluator when the target resolves to NaN. -/
theorem eval_tgt_nan {pf : String → Option (Option ℚ)} {row : Row}
    {prev : Option Row} {c : Condition} {cur : ℚ}
    (hc : row.cell (_resolve_column c.indicator (c.parameter.getD "value")) = some (some cur))
    (ht : resolveTarget pf row c.value = .ok (some none)) :
    evaluate_condition pf row prev c = .ok false := by
  simp only [evaluate_condition, hc, ht]

/-- Reduction of the evaluator to the operator dispatch once the current
value and target resolved to finite numbers. -/
theorem eval_resolved {pf : String → Option (Option ℚ)} {row : Row}
    {prev : Option Row} {c : Condition} {cur t : ℚ}
    (hc : row.cell (_resolve_column c.indicator (c.parameter.getD "value")) = some (some cur))
    (ht : resolveTarget pf row c.value = .ok (some (some t))) :
    evaluate_condition pf row prev c =
      .ok (evalOp c.operator c.value
        (_resolve_column c.indicator (c.parameter.getD "value")) prev cur t) := by
  simp only [evaluate_condition, hc, ht]

/-- The three point operators dispatch without touching the previous
row. -/
theorem evalOp_point_indep (op : String) (v : TargetValue) (col : String)
    (p₁ p₂ : Option Row) (cur t : ℚ)
    (hop : op = ">" ∨ op = "<" ∨ op = "==") :
    evalOp op v col p₁ cur t = evalOp op v col p₂ cur t := by
  rcases hop with h | h | h <;> subst h <;> rfl

/-- An operator outside the five recognised ones makes `evalOp` fall
through to `false`. -/
theorem evalOp_unknown (op : String) (v : TargetValue) (col : String)
    (p : Option Row) (cur t : ℚ)
    (hop : op ∉ [">", "<", "==", "crosses_above", "crosses_below"]) :
    evalOp op v col p cur t = false := by
  simp only [List.mem_cons, List.not_mem_nil, or_false, not_or] at hop
  obtain ⟨h1, h2, h3, h4, h5⟩ := hop
  unfold evalOp
  rw [if_neg (by simpa using h1), if_neg (by simpa using h2),
    if_neg (by simpa using h3), if_neg (by simpa using h4),
    if_neg (by simpa using h5)]

end EvaluatorLemmas

/-- C2: totality and fail-safe-to-false of the condition evaluator, as
amended. The original claim quantifies over "any target value"; a
condition whose `value` entry is Python `None` makes `float(None)` raise
an uncaught `TypeError` (see the counterexample), so totality holds only
for string or numeric targets. For those, no exception escapes, and each
malformed input maps to `False`: an unknown column, a NaN current value,
a NaN target, an unresolvable string target, and an unknown operator. -/
theorem C2_eval_fail_safe :
    (∀ (pf : String → Option (Option ℚ)) (row : Row) (prev : Option Row)
      (c : Condition), c.value ≠ .pynone →
      ∃ b, evaluate_condition pf row prev c = .ok b) ∧
    (∀ (pf : String → Option (Option ℚ)) (row : Row) (prev : Option Row)
      (c : Condition),
      row.cell (_resolve_column c.indicator (c.parameter.getD "value")) = none →
      evaluate_condition pf row prev c = .ok false) ∧
    (∀ (pf : String → Option (Option ℚ)) (row : Row) (prev : Option Row)
      (c : Condition),
      row.cell (_resolve_column c.indicator (c.parameter.getD "value")) = some none →
      evaluate_condition pf row prev c = .ok false) ∧
    (∀ (pf : String → Option (Option ℚ)) (row : Row) (prev : Option Row)
      (c : Condition), c.value = .num none →
      evaluate_condition pf row prev c = .ok false) ∧
    (∀ (pf : String → Option (Option ℚ)) (row : Row) (prev : Option Row)
      (c : Condition) (s : String), c.value = .str s →
      row.cell (_resolve_column s "value") = none → pf s = none →
      evaluate_condition pf row prev c = .ok false) ∧
    (∀ (pf : String → Option (Option ℚ)) (row : Row) (prev : Option Row)
      (c : Condition), c.value ≠ .pynone →
      c.operator ∉ [">", "<", "==", "crosses_above", "crosses_below"] →
      evaluate_condition pf row prev c = .ok false) := by
  refine ⟨?_, ?_, ?_, ?_, ?_, ?_⟩
  · intro pf row prev c hv
    cases hc : row.cell (_resolve_column c.indicator (c.parameter.getD "value")) with
    | none => exact ⟨false, eval_col_missing hc⟩
    | some o =>
      cases o with
      | none => exact ⟨false, eval_cur_nan hc⟩
      | some cur =>
        obtain ⟨t, ht⟩ := resolveTarget_ok_of_ne_pynone pf row c.value hv
        cases t with
        | none => exact ⟨false, eval_tgt_unparsed hc ht⟩
        | some t' =>
          cases t' with
          | none => exact ⟨false, eval_tgt_nan hc ht⟩
          | some tn => exact ⟨_, eval_resolved hc ht⟩
  · intro pf row prev c hc
    exact eval_col_missing hc
  · intro pf row prev c hc
    exact eval_cur_nan hc
  · intro pf row prev c hv
    cases hc : row.cell (_resolve_column c.indicator (c.parameter.getD "value")) with
    | none => exact eval_col_missing hc
    | some o =>
      cases o with
      | none => exact eval_cur_nan hc
      | some cur =>
        refine eval_tgt_nan hc ?_
        rw [hv]
        simp only [resolveTarget]
  · intro pf row prev c s hv hcol hpf
    cases hc : row.cell (_resolve_column c.indicator (c.parameter.getD "value")) with
    | none => exact eval_col_missing hc
    | some o =>
      cases o with
      | none => exact eval_cur_nan hc
      | some cur =>
        refine eval_tgt_unparsed hc ?_
        rw [hv]
        simp only [resolveTarget, hcol, hpf]
  · intro pf row prev c hv hop
    cases hc : row.cell (_resolve_column c.indicator (c.parameter.getD "value")) with
    | none => exact eval_col_missing hc
    | some o =>
      cases o with
      | none => exact eval_cur_nan hc
      | some cur =>
        obtain ⟨t, ht⟩ := resolveTarget_ok_of_ne_pynone pf row c.value hv
        cases t with
        | none => exact eval_tgt_unparsed hc ht
        | some t' =>
          cases t' with
          | none => exact eval_tgt_nan hc ht
          | some tn =>
            rw [eval_resolved hc ht, evalOp_unknown c.operator c.value _ prev cur tn hop]

/-- C2 counterexample: the claim asserts `evaluate_condition` never
raises on any condition dict, but a well-resolved condition whose `value`
is Python `None` reaches `float(None)`, which raises `TypeError`
(modelled `.error ()`): the evaluator is not total. -/
theorem C2_eval_raises_on_none_target :
    evaluate_condition pfNone [("RSI_14", some 50)] none
      ⟨"RSI", none, ">", .pynone⟩ = .error () := rfl

/-- C2 witness: the amended theorem applied at concrete inputs — a
well-typed condition evaluates without error, and a condition naming an
unknown indicator column evaluates to `False`. -/
theorem C2_eval_fail_safe_witness :
    (∃ b, evaluate_condition pfNone [("RSI_14", some 75)] none
      ⟨"RSI", none, ">", .num (some 70)⟩ = .ok b) ∧
    evaluate_condition pfNone [] none
      ⟨"Nonexistent", none, ">", .num (some 70)⟩ = .ok false :=
  ⟨C2_eval_fail_safe.1 pfNone [("RSI_14", some 75)] none
      ⟨"RSI", none, ">", .num (some 70)⟩ (by simp),
    C2_eval_fail_safe.2.1 pfNone [] none
      ⟨"Nonexistent", none, ">", .num (some 70)⟩ rfl⟩


/-- Cross-above dispatch with no previous row is `False`. -/
theorem evalOp_ca_noprev (v : TargetValue) (col : String) (cur t : ℚ) :
    evalOp "crosses_above" v col none cur t = false := rfl

/-- Cross-below dispatch with no previous row is `False`. -/
theorem evalOp_cb_noprev (v : TargetValue) (col : String) (cur t : ℚ) :
    evalOp "crosses_below" v col none cur t = false := rfl

/-- Cross-above dispatch on a numeric target with the column present and
finite in the previous row. -/
theorem evalOp_ca_num (col : String) (prev : Row) (pv cur t : ℚ)
    (hp : prev.cell col = some (some pv)) :
    evalOp "crosses_above" (.num (some t)) col (some prev) cur t =
      (decide (pv ≤ t) && decide (cur > t)) := by
  unfold evalOp
  rw [if_neg (by decide), if_neg (by decide), if_neg (by decide),
    if_pos (by decide)]
  simp only [hp, prevTarget, pyLe]

/-- Cross-below dispatch on a numeric target with the column present and
finite in the previous row. -/
theorem evalOp_cb_num (col : String) (prev : Row) (pv cur t : ℚ)
    (hp : prev.cell col = some (some pv)) :
    evalOp "crosses_below" (.num (some t)) col (some prev) cur t =
      (decide (t ≤ pv) && decide (cur < t)) := by
  unfold evalOp
  rw [if_neg (by decide), if_neg (by decide), if_neg (by decide),
    if_neg (by decide), if_pos (by decide)]
  simp only [hp, prevTarget, pyGe]

/-- C5: cross-operator semantics, as amended. The original claim says
`evaluate(row, None, c)` is false for every `CROSSES_ABOVE` condition;
that fails for a condition whose target is Python `None`, which raises
before the operator is even inspected (see the counterexample). For every
cross condition with a string or numeric target, no previous row gives
`False`; and with a previous row carrying the column finitely and a
finite numeric target, `CROSSES_ABOVE` is true iff the previous value is
`≤` the target and the current value is `>` it, `CROSSES_BELOW` the
mirror. -/
theorem C5_crosses_semantics :
    (∀ (pf : String → Option (Option ℚ)) (row : Row) (c : Condition),
      (c.operator = "crosses_above" ∨ c.operator = "crosses_below") →
      c.value ≠ .pynone →
      evaluate_condition pf row none c = .ok false) ∧
    (∀ (pf : String → Option (Option ℚ)) (row prev : Row) (c : Condition)
      (pv cur t : ℚ), c.operator = "crosses_above" →
      c.value = .num (some t) →
      row.cell (_resolve_column c.indicator (c.parameter.getD "value")) = some (some cur) →
      prev.cell (_resolve_column c.indicator (c.parameter.getD "value")) = some (some pv) →
      evaluate_condition pf row (some prev) c =
        .ok (decide (pv ≤ t) && decide (cur > t))) ∧
    (∀ (pf : String → Option (Option ℚ)) (row prev : Row) (c : Condition)
      (pv cur t : ℚ), c.operator = "crosses_below" →
      c.value = .num (some t) →
      row.cell (_resolve_column c.indicator (c.parameter.getD "value")) = some (some cur) →
      prev.cell (_resolve_column c.indicator (c.parameter.getD "value")) = some (some pv) →
      evaluate_condition pf row (some prev) c =
        .ok (decide (t ≤ pv) && decide (cur < t))) := by
  refine ⟨?_, ?_, ?_⟩
  · intro pf row c hop hv
    cases hc : row.cell (_resolve_column c.indicator (c.parameter.getD "value")) with
    | none => exact eval_col_missing hc
    | some o =>
      cases o with
      | none => exact eval_cur_nan hc
      | some cur =>
        obtain ⟨t, ht⟩ := resolveTarget_ok_of_ne_pynone pf row c.value hv
        cases t with
        | none => exact eval_tgt_unparsed hc ht
        | some t' =>
          cases t' with
          | none => exact eval_tgt_nan hc ht
          | some tn =>
            rw [eval_resolved hc ht]
            rcases hop with h | h <;> rw [h]
            · rw [evalOp_ca_noprev]
            · rw [evalOp_cb_noprev]
  · intro pf row prev c pv cur t hop hval hc hp
    have ht : resolveTarget pf row c.value = .ok (some (some t)) := by
      rw [hval]
      simp only [resolveTarget]
    rw [eval_resolved hc ht, hop, hval, evalOp_ca_num _ prev pv cur t hp]
  · intro pf row prev c pv cur t hop hval hc hp
    have ht : resolveTarget pf row c.value = .ok (some (some t)) := by
      rw [hval]
      simp only [resolveTarget]
    rw [eval_resolved hc ht, hop, hval, evalOp_cb_num _ prev pv cur t hp]

/-- C5 counterexample: the claim quantifies over every `CROSSES_ABOVE`
condition, but one whose `value` is Python `None` reaches `float(None)`
before the operator dispatch, so with no previous row the evaluator
raises instead of returning `False`. -/
theorem C5_crosses_raises_on_none_target :
    evaluate_condition pfNone [("RSI_14", some 50)] none
      ⟨"RSI", none, "crosses_above", .pynone⟩ = .error () := rfl

/-- C5 witness: the amended theorem applied at a concrete crossing — RSI
rose from 65 to 75 across the target 70. -/
theorem C5_crosses_semantics_witness :
    Row.cell [("RSI_14", some 75)] (_resolve_column "RSI" "value") = some (some 75) ∧
    Row.cell [("RSI_14", some 65)] (_resolve_column "RSI" "value") = some (some 65) ∧
    evaluate_condition pfNone [("RSI_14", some 75)] (some [("RSI_14", some 65)])
      ⟨"RSI", none, "crosses_above", .num (some 70)⟩ =
      .ok (decide ((65 : ℚ) ≤ 70) && decide ((75 : ℚ) > 70)) :=
  ⟨rfl, rfl,
    C5_crosses_semantics.2.1 pfNone [("RSI_14", some 75)] [("RSI_14", some 65)]
      ⟨"RSI", none, "crosses_above", .num (some 70)⟩ 65 75 70 rfl rfl rfl rfl⟩

/-- C6: the point operators `GT`, `LT`, `EQ` depend only on the current
row — replacing the previous row (or dropping it) never changes the
result, including the raising behaviour on a `None` target — and `EQ`
compares with an epsilon of `1e-8` once both sides resolve to finite
numbers. -/
theorem C6_point_ops_current_row_only :
    (∀ (pf : String → Option (Option ℚ)) (row : Row) (p₁ p₂ : Option Row)
      (c : Condition),
      (c.operator = ">" ∨ c.operator = "<" ∨ c.operator = "==") →
      evaluate_condition pf row p₁ c = evaluate_condition pf row p₂ c) ∧
    (∀ (pf : String → Option (Option ℚ)) (row : Row) (prev : Option Row)
      (c : Condition) (cur t : ℚ), c.operator = "==" →
      c.value = .num (some t) →
      row.cell (_resolve_column c.indicator (c.parameter.getD "value")) = some (some cur) →
      evaluate_condition pf row prev c =
        .ok (decide (pyAbs (cur - t) < 1 / 100000000))) := by
  constructor
  · intro pf row p₁ p₂ c hop
    cases hc : row.cell (_resolve_column c.indicator (c.parameter.getD "value")) with
    | none => rw [eval_col_missing hc, eval_col_missing hc]
    | some o =>
      cases o with
      | none => rw [eval_cur_nan hc, eval_cur_nan hc]
      | some cur =>
        cases ht : resolveTarget pf row c.value with
        | error e => cases e; rw [eval_tgt_error hc ht, eval_tgt_error hc ht]
        | ok o₂ =>
          cases o₂ with
          | none => rw [eval_tgt_unparsed hc ht, eval_tgt_unparsed hc ht]
          | some o₃ =>
            cases o₃ with
            | none => rw [eval_tgt_nan hc ht, eval_tgt_nan hc ht]
            | some t =>
              rw [eval_resolved hc ht, eval_resolved hc ht]
              exact congrArg _ (evalOp_point_indep _ _ _ p₁ p₂ cur t hop)
  · intro pf row prev c cur t hop hval hc
    have ht : resolveTarget pf row c.value = .ok (some (some t)) := by
      rw [hval]
      simp only [resolveTarget]
    rw [eval_resolved hc ht, hop]
    rfl

/-- C6 witness: the theorem applied at concrete inputs — a `GT` condition
evaluated against two different previous rows, and an `EQ` condition
reduced to its epsilon comparison. -/
theorem C6_point_ops_current_row_only_witness :
    evaluate_condition pfNone [("RSI_14", some 75)] (some [("RSI_14", some 10)])
        ⟨"RSI", none, ">", .num (some 70)⟩ =
      evaluate_condition pfNone [("RSI_14", some 75)] (some [("RSI_14", some 99)])
        ⟨"RSI", none, ">", .num (some 70)⟩ ∧
    evaluate_condition pfNone [("RSI_14", some 75)] none
        ⟨"RSI", none, "==", .num (some 75)⟩ =
      .ok (decide (pyAbs ((75 : ℚ) - 75) < 1 / 100000000)) :=
  ⟨C6_point_ops_current_row_only.1 pfNone [("RSI_14", some 75)]
      (some [("RSI_14", some 10)]) (some [("RSI_14", some 99)])
      ⟨"RSI", none, ">", .num (some 70)⟩ (Or.inl rfl),
    C6_point_ops_current_row_only.2 pfNone [("RSI_14", some 75)] none
      ⟨"RSI", none, "==", .num (some 75)⟩ 75 75 rfl rfl rfl⟩

section BacktesterLemmas

/-- Bind on a successful `Except Unit` computation. -/
theorem bindOk {α β : Type} (a : α) (f : α → Except Unit β) :
    (Except.ok a >>= f : Except Unit β) = f a := rfl

/-- Bind on a failed `Except Unit` computation. -/
theorem bindErr {α β : Type} (f : α → Except Unit β) :
    (Except.error () >>= f : Except Unit β) = .error () := rfl

/-- Pure in `Except Unit` is `.ok`. -/
theorem pureOk {α : Type} (a : α) : (pure a : Except Unit α) = .ok a := rfl

/-- Map on a successful `Except Unit` computation. -/
theorem mapOk {α β : Type} (a : α) (f : α → β) :
    (Except.ok a).map f = (.ok (f a) : Except Unit β) := rfl

/-- Map on a failed `Except Unit` computation. -/
theorem mapErr {α β : Type} (f : α → β) :
    (Except.error () : Except Unit α).map f = (.error () : Except Unit β) := rfl

/-- A short-circuit conjunction that succeeds with `true` certifies every
member condition as individually true. -/
theorem allConds_ok_true_mem {pf : String → Option (Option ℚ)} {row : Row}
    {prev : Option Row} : ∀ {cs : List Condition},
    allConds pf row prev cs = .ok true →
    ∀ c ∈ cs, evaluate_condition pf row prev c = .ok true := by
  intro cs
  induction cs with
  | nil => intro _ c hc; exact absurd hc (List.not_mem_nil c)
  | cons c cs ih =>
    intro h d hd
    rw [allConds] at h
    cases he : evaluate_condition pf row prev c with
    | error e =>
      cases e
      rw [he, bindErr] at h
      exact absurd h (by simp)
    | ok b =>
      rw [he, bindOk] at h
      cases b with
      | false =>
        rw [if_neg (by simp), pureOk] at h
        exact absurd h (by simp)
      | true =>
        rw [if_pos rfl] at h
        rcases List.mem_cons.mp hd with hdc | hdcs
        · exact hdc ▸ he
        · exact ih h d hdcs

/-- A rule returned by the entry scan never has an empty entry-condition
list. -/
theorem scanEntry_some_nonempty {pf : String → Option (Option ℚ)}
    {row prev_row : Row} : ∀ {rcs : List RuleConfig} {rc : RuleConfig},
    scanEntry pf row prev_row rcs = .ok (some rc) →
    rc.entry_conditions ≠ [] := by
  intro rcs
  induction rcs with
  | nil => intro rc h; rw [scanEntry] at h; exact absurd h (by simp)
  | cons r rest ih =>
    intro rc h
    rw [scanEntry] at h
    by_cases hemp : r.entry_conditions.isEmpty
    · rw [if_pos hemp] at h
      exact ih h
    · rw [if_neg hemp] at h
      cases ha : allConds pf row (some prev_row) r.entry_conditions with
      | error e =>
        cases e
        rw [ha, bindErr] at h
        exact absurd h (by simp)
      | ok b =>
        rw [ha, bindOk] at h
        cases b with
        | false => exact ih h
        | true =>
          rw [if_pos rfl, pureOk] at h
          have hr : r = rc := by simpa using h
          subst hr
          simpa [List.isEmpty_iff] using hemp

/-- A per-condition result pass that succeeds with all results true
certifies every condition as individually true. -/
theorem liveCondResults_all_true {pf : String → Option (Option ℚ)}
    {row prev_row : Row} : ∀ {cs : List Condition} {rs : List Bool},
    liveCondResults pf row prev_row cs = .ok rs → rs.all id = true →
    ∀ c ∈ cs, evaluate_condition pf row (some prev_row) c = .ok true := by
  intro cs
  induction cs with
  | nil => intro rs _ _ c hc; exact absurd hc (List.not_mem_nil c)
  | cons c cs ih =>
    intro rs h hall d hd
    rw [liveCondResults] at h
    cases he : evaluate_condition pf row (some prev_row) c with
    | error e =>
      cases e
      rw [he, bindErr] at h
      exact absurd h (by simp)
    | ok b =>
      rw [he, bindOk] at h
      cases hrest : liveCondResults pf row prev_row cs with
      | error e =>
        cases e
        rw [hrest, bindErr] at h
        exact absurd h (by simp)
      | ok rest =>
        rw [hrest, bindOk, pureOk] at h
        have hrs : rs = b :: rest := by simpa using h.symm
        subst hrs
        simp only [List.all_cons, Bool.and_eq_true, id_eq] at hall
        rcases List.mem_cons.mp hd with hdc | hdcs
        · exact hdc ▸ (by rw [he, hall.1])
        · exact ih hrest hall.2 d hdcs

/-- The capital-protection chain only ever produces `stop_loss`,
`take_profit`, or nothing. -/
theorem capitalChecks_ne_strategy (eff_sl eff_tp : Option ℚ) (pnl_pips : ℚ) :
    capitalChecks eff_sl eff_tp pnl_pips ≠ some "strategy_exit" := by
  unfold capitalChecks
  cases eff_tp <;> cases eff_sl <;> simp only [tpCheck, slCheck] <;>
    first
      | (split_ifs <;> simp)
      | simp

/-- A fired stop-loss or take-profit check makes the capital-protection
chain produce a reason. -/
theorem capitalChecks_ne_none_of_hit (eff_sl eff_tp : Option ℚ) (pnl_pips : ℚ)
    (hhit : (∃ v, eff_sl = some v ∧ v ≠ 0 ∧ pnl_pips ≤ -v) ∨
      (∃ v, eff_tp = some v ∧ v ≠ 0 ∧ v ≤ pnl_pips)) :
    capitalChecks eff_sl eff_tp pnl_pips ≠ none := by
  unfold capitalChecks
  rcases hhit with ⟨v, hv, hv0, hvp⟩ | ⟨v, hv, hv0, hvp⟩
  · subst hv
    have hsl : slCheck (some v) pnl_pips = some "stop_loss" := by
      simp only [slCheck]
      rw [if_pos ⟨hv0, hvp⟩]
    rw [hsl]
    cases eff_tp with
    | some w => simp only [tpCheck]; split_ifs <;> simp
    | none => simp [tpCheck]
  · subst hv
    simp only [tpCheck]
    rw [if_pos ⟨hv0, hvp⟩]
    simp

end BacktesterLemmas

/-- C1: in the Backtest Simulator, while a position is open, the
stop-loss and take-profit checks apply on every bar with no reference to
`min_bars_before_exit` — whenever either fires, the bar's exit decision
is a reason (the trade closes) for arbitrary `bars_held` and `min_bars` —
whereas the decision is `strategy_exit` only when the rule has exit
conditions, `bars_held ≥ min_bars`, and every exit condition evaluates
true. -/
theorem C1_sl_tp_ungated (pf : String → Option (Option ℚ))
    (row prev_row : Row) (bars_held : ℕ) (rc : RuleConfig)
    (eff_sl eff_tp : Option ℚ) (pnl_pips : ℚ) (res : Option String)
    (h : btExitReason pf row prev_row bars_held rc eff_sl eff_tp pnl_pips = .ok res) :
    (((∃ v, eff_sl = some v ∧ v ≠ 0 ∧ pnl_pips ≤ -v) ∨
      (∃ v, eff_tp = some v ∧ v ≠ 0 ∧ v ≤ pnl_pips)) → res ≠ none) ∧
    (res = some "strategy_exit" →
      rc.exit_conditions ≠ [] ∧ rc.min_bars ≤ bars_held ∧
      ∀ c ∈ rc.exit_conditions,
        evaluate_condition pf row (some prev_row) c = .ok true) := by
  by_cases hg : rc.exit_conditions ≠ [] ∧ rc.min_bars ≤ bars_held
  · rw [btExitReason, if_pos hg] at h
    cases ha : allConds pf row (some prev_row) rc.exit_conditions with
    | error e =>
      cases e
      rw [ha, mapErr] at h
      exact absurd h (by simp)
    | ok b =>
      rw [ha, mapOk] at h
      have hres : res = if b then some "strategy_exit"
          else capitalChecks eff_sl eff_tp pnl_pips := by simpa using h.symm
      constructor
      · intro hhit
        cases b with
        | true => simp [hres]
        | false =>
          rw [hres]
          simpa using capitalChecks_ne_none_of_hit eff_sl eff_tp pnl_pips hhit
      · intro hse
        cases b with
        | true => exact ⟨hg.1, hg.2, allConds_ok_true_mem ha⟩
        | false =>
          rw [hse] at hres
          exact absurd hres.symm
            (by simpa using capitalChecks_ne_strategy eff_sl eff_tp pnl_pips)
  · rw [btExitReason, if_neg hg] at h
    have hres : res = capitalChecks eff_sl eff_tp pnl_pips := by simpa using h.symm
    constructor
    · intro hhit
      rw [hres]
      exact capitalChecks_ne_none_of_hit eff_sl eff_tp pnl_pips hhit
    · intro hse
      rw [hse] at hres
      exact absurd hres.symm (capitalChecks_ne_strategy eff_sl eff_tp pnl_pips)

/-- C1 witness: a bar where the stop-loss fires with `bars_held = 0` and
`min_bars = 5` still closes the trade. -/
theorem C1_sl_tp_ungated_witness :
    btExitReason pfNone [("close", some 1)] [("close", some 1)] 0
      ⟨0, "buy", [], [], some 20, none, none, none, 5⟩
      (some 20) none (-25) = .ok (some "stop_loss") ∧
    (some "stop_loss" : Option String) ≠ none :=
  ⟨by decide,
    (C1_sl_tp_ungated pfNone [("close", some 1)] [("close", some 1)] 0
      ⟨0, "buy", [], [], some 20, none, none, none, 5⟩
      (some 20) none (-25) (some "stop_loss") (by decide)).1
      (Or.inl ⟨20, rfl, by norm_num, by norm_num⟩)⟩

/-- C4: while flat, rules are scanned in list order and the first rule
whose (non-empty) entry conditions are all true opens the position: if
every earlier rule either has no entry conditions or fails the
conjunction, the scan returns exactly that rule, whatever rules follow
it. -/
theorem C4_first_match_wins (pf : String → Option (Option ℚ))
    (row prev_row : Row) (pre : List RuleConfig) (rc : RuleConfig)
    (post : List RuleConfig)
    (hpre : ∀ r ∈ pre, r.entry_conditions = [] ∨
      allConds pf row (some prev_row) r.entry_conditions = .ok false)
    (hne : rc.entry_conditions ≠ [])
    (hall : allConds pf row (some prev_row) rc.entry_conditions = .ok true) :
    scanEntry pf row prev_row (pre ++ rc :: post) = .ok (some rc) := by
  induction pre with
  | nil =>
    rw [List.nil_append, scanEntry,
      if_neg (by simpa [List.isEmpty_iff] using hne), hall, bindOk,
      if_pos rfl, pureOk]
  | cons r pre ih =>
    rw [List.cons_append, scanEntry]
    rcases hpre r (List.mem_cons_self r pre) with hre | hfalse
    · rw [if_pos (by simp [hre])]
      exact ih (fun x hx => hpre x (List.mem_cons_of_mem r hx))
    · by_cases hemp : r.entry_conditions.isEmpty
      · rw [if_pos hemp]
        exact ih (fun x hx => hpre x (List.mem_cons_of_mem r hx))
      · rw [if_neg hemp, hfalse, bindOk, if_neg (by simp)]
        exact ih (fun x hx => hpre x (List.mem_cons_of_mem r hx))

/-- C4 witness: a failing rule before the matching one and an arbitrary
rule after it — the scan returns the matching rule. -/
theorem C4_first_match_wins_witness :
    scanEntry pfNone [("RSI_14", some 75), ("close", some 1)] [("RSI_14", some 65)]
      ([⟨0, "buy", [⟨"RSI", none, "<", .num (some 30)⟩], [], none, none, none, none, 0⟩] ++
        ⟨1, "buy", [⟨"RSI", none, ">", .num (some 70)⟩], [], none, none, none, none, 0⟩ ::
        [⟨2, "sell", [⟨"RSI", none, ">", .num (some 5)⟩], [], none, none, none, none, 0⟩]) =
      .ok (some ⟨1, "buy", [⟨"RSI", none, ">", .num (some 70)⟩], [], none, none, none, none, 0⟩) :=
  C4_first_match_wins pfNone [("RSI_14", some 75), ("close", some 1)] [("RSI_14", some 65)]
    [⟨0, "buy", [⟨"RSI", none, "<", .num (some 30)⟩], [], none, none, none, none, 0⟩]
    ⟨1, "buy", [⟨"RSI", none, ">", .num (some 70)⟩], [], none, none, none, none, 0⟩
    [⟨2, "sell", [⟨"RSI", none, ">", .num (some 5)⟩], [], none, none, none, none, 0⟩]
    (by intro r hr
        rcases List.mem_singleton.mp hr with rfl
        exact Or.inr (by decide))
    (by decide) (by decide)

/-- C8: the quality gate degrades fail-open — with no trained model
available, `predict_confidence` returns the passing neutral result
(`score = 1.0`, `pass = True`) for every feature vector, so a missing
model never blocks or aborts an entry. -/
theorem C8_no_model_fail_open :
    ∀ features : List ℚ,
      predict_confidence none features = ⟨1, true, DEFAULT_THRESHOLD, false⟩ :=
  fun _ => rfl

/-- C10: a rule with an empty entry-condition list never opens a
position — the simulator's entry scan never returns such a rule, and the
live gate yields `False` on an empty list and, whenever it allows an
entry, the list was non-empty, the quality gate passed, and every entry
condition evaluated true. -/
theorem C10_empty_entry_never_opens :
    (∀ (pf : String → Option (Option ℚ)) (row prev_row : Row)
      (rcs : List RuleConfig) (rc : RuleConfig),
      scanEntry pf row prev_row rcs = .ok (some rc) →
      rc.entry_conditions ≠ []) ∧
    (∀ (pf : String → Option (Option ℚ)) (row prev_row : Row)
      (ml_pass : Bool),
      liveEntryDecision pf row prev_row [] ml_pass = .ok false) ∧
    (∀ (pf : String → Option (Option ℚ)) (row prev_row : Row)
      (cs : List Condition) (ml_pass : Bool),
      liveEntryDecision pf row prev_row cs ml_pass = .ok true →
      cs ≠ [] ∧ ml_pass = true ∧
      ∀ c ∈ cs, evaluate_condition pf row (some prev_row) c = .ok true) := by
  refine ⟨fun pf row prev rcs rc h => scanEntry_some_nonempty h, fun _ _ _ _ => rfl, ?_⟩
  intro pf row prev_row cs ml_pass h
  rw [liveEntryDecision] at h
  cases hr : liveCondResults pf row prev_row cs with
  | error e =>
    cases e
    rw [hr, bindErr] at h
    exact absurd h (by simp)
  | ok rs =>
    rw [hr, bindOk, pureOk] at h
    have hb : (rs.all id && decide (0 < cs.length) && ml_pass) = true := by
      simpa using h
    simp only [Bool.and_eq_true, decide_eq_true_eq] at hb
    exact ⟨by simpa using List.length_pos.mp hb.1.2, hb.2,
      liveCondResults_all_true hr hb.1.1⟩

/-- C10 witness: the theorem's live conjunct applied at a concrete tick
whose single entry condition holds. -/
theorem C10_empty_entry_never_opens_witness :
    liveEntryDecision pfNone [("RSI_14", some 75)] [("RSI_14", some 65)]
      [⟨"RSI", none, ">", .num (some 70)⟩] true = .ok true ∧
    ([⟨"RSI", none, ">", .num (some 70)⟩] : List Condition) ≠ [] :=
  ⟨by decide,
    (C10_empty_entry_never_opens.2.2 pfNone [("RSI_14", some 75)] [("RSI_14", some 65)]
      [⟨"RSI", none, ">", .num (some 70)⟩] true (by decide)).1⟩

/-- A Python `abs` result is zero exactly when its argument is. -/
theorem pyAbs_eq_zero (q : ℚ) : pyAbs q = 0 ↔ q = 0 := by
  unfold pyAbs
  split_ifs <;> simp

/-- C3: exit-reason classification, as amended. The classifier compares
the realized exit price to the recorded stop then target within
`tol = max(|exit| * 1e-5, 1e-5)` and returns `take_profit` when the
target comparison is the one within tolerance; but in the claim's
concrete scenario — recorded stop/target `{1.0980, 1.1050}` and exit
price `1.1051` — the gap `1e-4` exceeds the tolerance `≈ 1.1051e-5`, so
the exit is classified `external`, not `take_profit`. -/
theorem C3_exit_classification :
    (∀ (deals : List Deal) (ticket : ℤ) (ts : TradeStateRec) (d : Deal) (tp : ℚ),
      deals.find? (fun d => d.entry == "out" && d.position_id == some ticket) = some d →
      (match ts.sl_price with
        | some sl => decide (pyAbs (d.price - sl) ≤
            pyMax (pyAbs d.price * (1 / 100000)) (1 / 100000))
        | none => false) = false →
      ts.tp_price = some tp →
      pyAbs (d.price - tp) ≤ pyMax (pyAbs d.price * (1 / 100000)) (1 / 100000) →
      _determine_exit_reason deals ticket (some ts) = "take_profit") ∧
    _determine_exit_reason [⟨"out", some 111, 11051 / 10000⟩] 111
      (some ⟨some (1098 / 1000), some (1105 / 1000)⟩) = "external" := by
  constructor
  · intro deals ticket ts d tp hfind hsl htp hle
    simp only [_determine_exit_reason, hfind, hsl, htp, Bool.false_eq_true,
      if_false, decide_eq_true hle, if_true]
  · norm_num [_determine_exit_reason, pyAbs, pyMax, List.find?]

/-- C3 counterexample: at the claim's own concrete scenario the
classifier does not return `take_profit`. -/
theorem C3_scenario_not_take_profit :
    _determine_exit_reason [⟨"out", some 111, 11051 / 10000⟩] 111
      (some ⟨some (1098 / 1000), some (1105 / 1000)⟩) ≠ "take_profit" := by
  norm_num [_determine_exit_reason, pyAbs, pyMax, List.find?]
  decide

/-- C3 witness: the amended theorem applied at an exit price exactly on
the recorded target, which is classified `take_profit`. -/
theorem C3_exit_classification_witness :
    ([⟨"out", some 7, 1105 / 1000⟩] : List Deal).find?
      (fun d => d.entry == "out" && d.position_id == some 7) =
      some ⟨"out", some 7, 1105 / 1000⟩ ∧
    _determine_exit_reason [⟨"out", some 7, 1105 / 1000⟩] 7
      (some ⟨some (1098 / 1000), some (1105 / 1000)⟩) = "take_profit" :=
  ⟨rfl,
    C3_exit_classification.1 [⟨"out", some 7, 1105 / 1000⟩] 7
      ⟨some (1098 / 1000), some (1105 / 1000)⟩ ⟨"out", some 7, 1105 / 1000⟩
      (1105 / 1000) rfl
      (by norm_num [pyAbs, pyMax]) rfl (by norm_num [pyAbs, pyMax])⟩

/-- C7: the profit-factor divisor, as amended. The `0.0001` floor applies
exactly when the trade list contains no losing trade (`profit <= 0`);
when losing trades exist, the divisor is `abs(sum(losses))`, which is
nonzero whenever the losses do not sum to zero — but when losing trades
exist and their profits sum to zero, the division raises
`ZeroDivisionError` (the claim's "never divides by zero" fails there, see
the counterexample). -/
theorem C7_profit_factor_divisor (trades : List Trade)
    (initial_balance final_balance : ℚ) (hne : trades ≠ []) :
    (((trades.map (·.profit)).filter (fun p => p ≤ 0)) = [] →
      ∃ s, _calculate_stats trades initial_balance final_balance = .ok s ∧
        s.profit_factor =
          (if ((trades.map (·.profit)).filter (fun p => 0 < p)) ≠ [] then
            ((trades.map (·.profit)).filter (fun p => 0 < p)).sum else 0) /
          (1 / 10000)) ∧
    (((trades.map (·.profit)).filter (fun p => p ≤ 0)).sum ≠ 0 →
      ∃ s, _calculate_stats trades initial_balance final_balance = .ok s ∧
        s.profit_factor =
          (if ((trades.map (·.profit)).filter (fun p => 0 < p)) ≠ [] then
            ((trades.map (·.profit)).filter (fun p => 0 < p)).sum else 0) /
          pyAbs ((trades.map (·.profit)).filter (fun p => p ≤ 0)).sum) ∧
    (((trades.map (·.profit)).filter (fun p => p ≤ 0)) ≠ [] →
      ((trades.map (·.profit)).filter (fun p => p ≤ 0)).sum = 0 →
      _calculate_stats trades initial_balance final_balance = .error ()) := by
  refine ⟨?_, ?_, ?_⟩
  · intro hlemp
    simp only [_calculate_stats]
    rw [if_neg hne, hlemp, if_neg (show ¬(([] : List ℚ) ≠ []) from by simp),
      if_neg (show ¬((1 : ℚ) / 10000 = 0) from by norm_num)]
    exact ⟨_, rfl, rfl⟩
  · intro hsum
    have hlne : ((trades.map (·.profit)).filter (fun p => p ≤ 0)) ≠ [] := by
      intro h
      exact hsum (by rw [h]; rfl)
    simp only [_calculate_stats]
    rw [if_neg hne, if_pos hlne, if_neg (fun h => hsum ((pyAbs_eq_zero _).mp h))]
    exact ⟨_, rfl, rfl⟩
  · intro hlne hsum
    simp only [_calculate_stats]
    rw [if_neg hne, if_pos hlne, hsum, if_pos (by norm_num [pyAbs])]

/-- C7 counterexample: a non-empty trade list — a single trade with
profit exactly `0`, a reachable `strategy_exit` at the entry price — has
a losing-trades bucket `[0]` whose sum is zero, so the profit-factor
division is by zero and `_calculate_stats` raises. -/
theorem C7_zero_loss_divides_by_zero :
    _calculate_stats [⟨1, 1, "buy", 0, 0, "strategy_exit", 0⟩] 10000 10000 =
      .error () := by
  norm_num [_calculate_stats, pyAbs]

/-- C7 witness: the amended theorem applied to a list with one losing and
one winning trade — the stats succeed with the profit factor divided by
the absolute loss sum. -/
theorem C7_profit_factor_divisor_witness :
    (([⟨1, 1, "buy", 0, -50, "stop_loss", 0⟩, ⟨1, 1, "buy", 0, 100, "take_profit", 0⟩]
        : List Trade) ≠ []) ∧
    ((([⟨1, 1, "buy", 0, -50, "stop_loss", 0⟩, ⟨1, 1, "buy", 0, 100, "take_profit", 0⟩]
        : List Trade).map (·.profit)).filter (fun p => p ≤ 0)).sum ≠ 0 ∧
    ∃ s, _calculate_stats
        [⟨1, 1, "buy", 0, -50, "stop_loss", 0⟩, ⟨1, 1, "buy", 0, 100, "take_profit", 0⟩]
        10000 10050 = .ok s ∧
      s.profit_factor =
        (if ((([⟨1, 1, "buy", 0, -50, "stop_loss", 0⟩, ⟨1, 1, "buy", 0, 100, "take_profit", 0⟩]
            : List Trade).map (·.profit)).filter (fun p => 0 < p)) ≠ [] then
          ((([⟨1, 1, "buy", 0, -50, "stop_loss", 0⟩, ⟨1, 1, "buy", 0, 100, "take_profit", 0⟩]
            : List Trade).map (·.profit)).filter (fun p => 0 < p)).sum else 0) /
        pyAbs ((([⟨1, 1, "buy", 0, -50, "stop_loss", 0⟩, ⟨1, 1, "buy", 0, 100, "take_profit", 0⟩]
          : List Trade).map (·.profit)).filter (fun p => p ≤ 0)).sum :=
  ⟨by simp, by norm_num, (C7_profit_factor_divisor _ 10000 10050 (by simp)).2.1 (by norm_num)⟩

/-- C9: the Instance Registry's double-start race. Because `algo_start`
performs its membership check and its registry insert under two separate
acquisitions of `_instances_lock`, the interleaving check-check-
insert-insert of two concurrent `algo_start("EURUSD")` calls is
reachable: both requests pass the check against the empty registry, both
insert and spawn a loop, and the system reaches a state with both threads
`running` and neither `rejected` — violating "exactly one running loop
and one rejection". -/
theorem C9_double_start_reachable :
    Relation.ReflTransGen (StartStep "EURUSD")
      ⟨[], .beforeCheck, .beforeCheck⟩ ⟨["EURUSD"], .running, .running⟩ := by
  refine Relation.ReflTransGen.head
    (StartStep.check1_miss ⟨[], .beforeCheck, .beforeCheck⟩ rfl (by simp)) ?_
  refine Relation.ReflTransGen.head
    (StartStep.check2_miss ⟨[], .beforeRegister, .beforeCheck⟩ rfl (by simp)) ?_
  refine Relation.ReflTransGen.head
    (StartStep.register1 ⟨[], .beforeRegister, .beforeRegister⟩ rfl) ?_
  refine Relation.ReflTransGen.head
    (StartStep.register2 ⟨regInsert "EURUSD" [], .running, .beforeRegister⟩ rfl) ?_
  have h : regInsert "EURUSD" (regInsert "EURUSD" []) = ["EURUSD"] := by decide
  rw [show (⟨["EURUSD"], .running, .running⟩ : RegSys) =
    ⟨regInsert "EURUSD" (regInsert "EURUSD" []), .running, .running⟩ from by rw [h]]

end MasstTrader
